import Mathlib

/-!
Verification development for the transaction-signing and fee-adjustment core
of the relayer (the `services/gas`, `services/cdp` and `services/signer`
modules).  Rust values are embedded shallowly:

* Rust `String`/`&str` payloads become `List Char`; byte vectors (`Vec<u8>`,
  slices) become `List Nat` whose entries are the byte values.
* `alloy::primitives::U256` becomes `Nat`.  Its `saturating_mul` /
  `saturating_add` clamp at `2 ^ 256 - 1`; the plain `+` operator of the
  underlying `ruint` integer wraps modulo `2 ^ 256` on overflow, which we model
  with an explicit `% 2 ^ 256`.  Where the source arithmetic provably cannot
  overflow (counts of bytes of an in-memory `Vec`, bounded by
  `isize::MAX < 2 ^ 63`, scaled by 16) the modulus is omitted.
* fallible Rust functions returning `Result<T, E>` become `Except E T`.
-/

namespace Relayer

/-- `2 ^ 256`, the modulus of `alloy::primitives::U256`. -/
def U256_MOD : Nat := 2 ^ 256

/-- The largest `U256` value, `2 ^ 256 - 1`. -/
def U256_MAX : Nat := 2 ^ 256 - 1

/-- `U256::saturating_mul`: multiplication clamping at `U256_MAX`. -/
def satMul (a b : Nat) : Nat := min (a * b) U256_MAX

/-- `U256::saturating_add`: addition clamping at `U256_MAX`. -/
def satAdd (a b : Nat) : Nat := min (a + b) U256_MAX

/-- One hex digit of the Rust `hex` crate: `0-9`, `a-f`, `A-F`. -/
def hexCharVal? (c : Char) : Option Nat :=
  if '0' ≤ c ∧ c ≤ '9' then some (c.toNat - '0'.toNat)
  else if 'a' ≤ c ∧ c ≤ 'f' then some (c.toNat - 'a'.toNat + 10)
  else if 'A' ≤ c ∧ c ≤ 'F' then some (c.toNat - 'A'.toNat + 10)
  else none

/-- `hex::decode`: two hex digits per byte; odd length or a non-hex character
makes the whole decode fail. -/
def hexDecode : List Char → Option (List Nat)
  | [] => some []
  | [_] => none
  | c1 :: c2 :: rest =>
    match hexCharVal? c1, hexCharVal? c2, hexDecode rest with
    | some hi, some lo, some bs => some ((16 * hi + lo) :: bs)
    | _, _, _ => none

/-- Lower-case hex digit character for a nibble. -/
def hexDigitChar (n : Nat) : Char :=
  if n < 10 then Char.ofNat ('0'.toNat + n) else Char.ofNat ('a'.toNat + n - 10)

/-- `hex::encode`: each byte becomes two lower-case hex digits. -/
def hexEncode : List Nat → List Char
  | [] => []
  | b :: bs => hexDigitChar (b / 16 % 16) :: hexDigitChar (b % 16) :: hexEncode bs

/-- Rust `str::trim_start_matches("0x")`: removes ALL leading occurrences of
`"0x"`, repeatedly, not just one. -/
def trimStartMatches0x : List Char → List Char
  | '0' :: 'x' :: rest => trimStartMatches0x rest
  | s => s

/-- The single-removal reading of a `"0x"` prefix (Rust `str::strip_prefix`
semantics): at most one leading `"0x"` is removed.  Used to compare the
spec's "stripping an optional 0x prefix" wording with the code's
`trim_start_matches`. -/
def stripOnce0x (s : List Char) : List Char :=
  match s with
  | '0' :: 'x' :: rest => rest
  | s => s

/-- `models::evm::EvmTransactionRequest`, restricted to the fields the gas
pipeline reads (`speed` and `valid_until` are never touched here); the Rust
field `to` is rendered `to_addr` because `to` is reserved in Lean. -/
structure EvmTransactionRequest where
  to_addr : Option (List Char)
  value : Nat
  data : Option (List Char)
  gas_limit : Option Nat
  gas_price : Option Nat
  max_fee_per_gas : Option Nat
  max_priority_fee_per_gas : Option Nat

/-- The hex-decoded data payload of `OptimismPriceHandler::calculate_compressed_tx_size`
(optimism.rs lines 73-77): `tx.data.as_ref().and_then(|s| hex::decode(s.trim_start_matches("0x")).ok()).unwrap_or_default()`. -/
def dataBytes (data : Option (List Char)) : List Nat :=
  (data.bind fun s => hexDecode (trimStartMatches0x s)).getD []

/-- Count of zero bytes (optimism.rs line 79). -/
def countZero (bytes : List Nat) : Nat :=
  (bytes.filter fun b => b == 0).length

/-- Count of non-zero bytes, as the spec phrases it (the code derives it as
`len - countZero`, optimism.rs line 80). -/
def countNonzero (bytes : List Nat) : Nat :=
  (bytes.filter fun b => !(b == 0)).length

/-- Arithmetic core of `calculate_compressed_tx_size` (optimism.rs lines
79-82) on an already-decoded byte payload.  The byte counts come from a
`Vec<u8>` length (`< 2 ^ 63`), so the `U256` products and sum stay far below
`2 ^ 256` and the modulus is omitted. -/
def compressedSizeOfBytes (bytes : List Nat) : Nat :=
  let zero_bytes := (bytes.filter fun b => b == 0).length
  let non_zero_bytes := bytes.length - zero_bytes
  (zero_bytes * 4 + non_zero_bytes * 16) / 16

/-- `OptimismPriceHandler::calculate_compressed_tx_size` (optimism.rs lines
72-83). -/
def calculate_compressed_tx_size (tx : EvmTransactionRequest) : Nat :=
  compressedSizeOfBytes (dataBytes tx.data)

/-- `OptimismFeeData` (optimism.rs lines 13-20): the six oracle values, each a
`U256`. -/
structure OptimismFeeData where
  l1_base_fee : Nat
  base_fee : Nat
  decimals : Nat
  blob_base_fee : Nat
  base_fee_scalar : Nat
  blob_base_fee_scalar : Nat

/-- `OptimismPriceHandler::calculate_fee` (optimism.rs lines 107-121): the two
products use `U256::saturating_mul`, but they are combined with the plain `+`
operator, which wraps modulo `2 ^ 256` on overflow; the final multiplication
is again saturating.  The source wraps the result in `Ok`; no error path
exists, so the embedding returns the value directly. -/
def calculate_fee (fee_data : OptimismFeeData) (tx : EvmTransactionRequest) : Nat :=
  let tx_compressed_size := calculate_compressed_tx_size tx
  let weighted_gas_price :=
    (satMul (satMul 16 fee_data.base_fee_scalar) fee_data.l1_base_fee +
      satMul fee_data.blob_base_fee_scalar fee_data.blob_base_fee) % U256_MOD
  satMul tx_compressed_size weighted_gas_price

/-- A transaction record carrying only a data payload; shared concrete-input
builder for the fee theorems. -/
def txWithData (d : Option (List Char)) : EvmTransactionRequest :=
  { to_addr := none, value := 0, data := d, gas_limit := none, gas_price := none,
    max_fee_per_gas := none, max_priority_fee_per_gas := none }

/-- `domain::evm::PriceParams` (spec §3): the fee-quote record threaded through
the gas pipeline. -/
structure PriceParams where
  gas_price : Option Nat
  max_fee_per_gas : Option Nat
  max_priority_fee_per_gas : Option Nat
  is_min_bumped : Option Bool
  extra_fee : Option Nat
  total_cost : Nat

/-- Modelled from the spec: the `DEFAULT_GAS_LIMIT` constant lives in the
`constants` module, which is not part of the sources under review; its
concrete value is immaterial to the claims, only that it is the value
substituted when `tx.gas_limit` is absent. -/
def DEFAULT_GAS_LIMIT : Nat := 21000

/-- Modelled from the spec: `PriceParams::calculate_total_cost` lives in
`domain/evm`, which is not part of the sources under review.  Per spec §4.6
and §8 the total cost is derived from the base fee model (the EIP-1559 max
fee per gas when `is_eip1559`, otherwise the gas price), the gas limit, the
transferred value and the extra fee, with saturating `U256` arithmetic
(spec §9). -/
def PriceParams.calculate_total_cost (p : PriceParams) (is_eip1559 : Bool)
    (gas_limit : Nat) (value : Nat) : Nat :=
  let unit_price := if is_eip1559 then p.max_fee_per_gas.getD 0 else p.gas_price.getD 0
  satAdd (satAdd (satMul unit_price gas_limit) value) (p.extra_fee.getD 0)

/-- `OptimismPriceHandler::handle_price_params` (optimism.rs lines 123-144),
with the successful oracle fetch abstracted into the `fee_data` argument (a
failed fetch aborts before any of this code runs): sets `extra_fee` to the
freshly computed L1 data cost, then recomputes `total_cost` from the base fee
model, the gas limit (defaulted), the value and the updated record. -/
def handle_price_params (fee_data : OptimismFeeData) (tx : EvmTransactionRequest)
    (original_params : PriceParams) : PriceParams :=
  let l1_data_cost := calculate_fee fee_data tx
  let p := { original_params with extra_fee := some l1_data_cost }
  let gas_limit := tx.gas_limit.getD DEFAULT_GAS_LIMIT
  let value := tx.value
  let is_eip1559 := p.max_fee_per_gas.isSome
  { p with total_cost := p.calculate_total_cost is_eip1559 gas_limit value }

/-- `models::Address` (spec §3): 20-byte EVM address or Solana base58 string. -/
inductive Address where
  | Evm (bytes : List Nat)
  | Solana (s : List Char)
  deriving DecidableEq

/-- `services::cdp::CdpError`, restricted to the variants the modelled code
constructs. -/
inductive CdpError where
  | ConfigError (msg : List Char)
  | SigningError (msg : List Char)
  deriving DecidableEq

/-- Rust `str::starts_with("0x")`. -/
def starts0x : List Char → Bool
  | '0' :: 'x' :: _ => true
  | _ => false

/-- `CdpService::address_from_string` (cdp/mod.rs lines 124-148): a string
beginning `0x` must hex-decode (after `strip_prefix("0x")`, one removal) to
exactly 20 bytes, else `ConfigError`; anything else is accepted as a Solana
address unchanged. -/
def address_from_string (s : List Char) : Except CdpError Address :=
  if starts0x s then
    match hexDecode (stripOnce0x s) with
    | none => .error (.ConfigError ("Invalid hex address: invalid hex".data))
    | some bytes =>
      if bytes.length ≠ 20 then
        .error (.ConfigError ("EVM address should be 20 bytes, got ".data ++
          (toString bytes.length).data ++ " bytes".data))
      else
        .ok (.Evm bytes)
  else
    .ok (.Solana s)

/-- `models::SignerError`, restricted to the variants the modelled code
constructs. -/
inductive SignerError where
  | SigningError (msg : List Char)
  | NotImplemented (msg : List Char)
  deriving DecidableEq

/-- `domain::SignDataResponseEvm` (spec §3): `r`/`s` as lower-case hex, the
recovery byte `v`, and the composite 65-byte signature hex. -/
structure SignDataResponseEvm where
  r : List Char
  s : List Char
  v : Nat
  sig : List Char
  deriving DecidableEq

/-- Local validation and splitting step of `CdpSigner::sign_data`
(evm/cdp_signer.rs lines 161-178), applied to the byte sequence the remote
sign-message call returned: exactly 65 bytes or a `SigningError` naming the
expected and actual lengths; on success `r = bytes[0..32]`, `s = bytes[32..64]`,
`v = bytes[64]`, `sig = hex` of all 65 bytes. -/
def sign_data_process (signature_bytes : List Nat) : Except SignerError SignDataResponseEvm :=
  if signature_bytes.length ≠ 65 then
    .error (.SigningError ("Invalid signature length from CDP: expected 65 bytes, got ".data ++
      (toString signature_bytes.length).data))
  else
    .ok { r := hexEncode (signature_bytes.take 32)
        , s := hexEncode ((signature_bytes.drop 32).take 32)
        , v := signature_bytes.getD 64 0
        , sig := hexEncode signature_bytes }

/-- `domain::SignTypedDataRequest` as the tests construct it. -/
structure SignTypedDataRequest where
  domain_separator : List Char
  hash_struct_message : List Char

/-- `CdpSigner::sign_typed_data` (evm/cdp_signer.rs lines 181-189):
unconditionally `NotImplemented`, the request is never inspected and no
signing is attempted. -/
def sign_typed_data (_typed_data : SignTypedDataRequest) : Except SignerError SignDataResponseEvm :=
  .error (.NotImplemented "EIP-712 typed data signing not yet implemented for CDP".data)

/-- Recovery-id handling of `CdpSigner::sign_transaction` (evm/cdp_signer.rs
lines 106-139), applied to the 65-byte `r ++ s ++ [v]` signature of the
decoded signed transaction (the RLP decode itself is the external `alloy`
codec): for EIP-1559 the byte at index 64 is rewritten 27 ↦ 0 and 28 ↦ 1 and
left alone otherwise; for legacy the bytes pass through untouched. -/
def processSignatureBytes (is_eip1559 : Bool) (sig_bytes : List Nat) : List Nat :=
  if is_eip1559 then
    if sig_bytes.getD 64 0 = 27 then sig_bytes.set 64 0
    else if sig_bytes.getD 64 0 = 28 then sig_bytes.set 64 1
    else sig_bytes
  else sig_bytes

/-- `Iterator::position`: index of the first element satisfying the
predicate. -/
def position (p : α → Bool) : List α → Option Nat
  | [] => none
  | x :: xs => if p x then some 0 else (position p xs).map (· + 1)

/-- Signature-resolution step of the Solana `CdpSigner::sign`
(solana/cdp_signer.rs lines 123-140), applied after the signed transaction
has been decoded and the CDP address resolved to `cdp_pubkey`: find the first
exact match of the pubkey in the account-key list (`SigningError` if absent),
bound-check the index against the signature list (`SigningError` if out of
bounds), and return the signature at that index. -/
def resolve_signature (cdp_pubkey : List Nat) (account_keys : List (List Nat))
    (signatures : List (List Nat)) : Except SignerError (List Nat) :=
  match position (fun key => key == cdp_pubkey) account_keys with
  | none => .error (.SigningError "CDP pubkey not found in transaction signers".data)
  | some signer_index =>
    if signer_index ≥ signatures.length then
      .error (.SigningError "Signature index out of bounds".data)
    else
      .ok (signatures.getD signer_index [])

/-- `pat` occurs as a contiguous substring of `s`. -/
def occursIn (pat s : List Char) : Prop :=
  ∃ l r, s = l ++ pat ++ r

/-- The zero and non-zero byte counts of a payload partition its length. -/
theorem countZero_add_countNonzero (bytes : List Nat) :
    countZero bytes + countNonzero bytes = bytes.length := by
  simp only [countZero, countNonzero, ← List.countP_eq_length_filter]
  have h := (bytes.length_eq_countP_add_countP (fun b => b == 0)).symm
  have he : (fun (a : Nat) => decide ¬(a == 0) = true) = (fun b => !(b == 0)) := by
    funext a
    by_cases ha : a = 0 <;> simp [ha]
  rwa [he] at h

/-- The compressed size in terms of the spec's zero / non-zero counts. -/
theorem compressedSizeOfBytes_eq (bytes : List Nat) :
    compressedSizeOfBytes bytes =
      (countZero bytes * 4 + countNonzero bytes * 16) / 16 := by
  have h := countZero_add_countNonzero bytes
  have hz : countZero bytes ≤ bytes.length := by omega
  have h2 : bytes.length - countZero bytes = countNonzero bytes := by omega
  simp only [compressedSizeOfBytes, countZero] at h2 ⊢
  rw [h2]

/-- C4: for every transaction the compressed size is
`floor((4*z + 16*n) / 16)` with `z` the zero-byte count and `n` the
non-zero-byte count of the hex-decoded data payload; it is 0 for an empty
payload (and when `data` is absent), and it is monotonically non-decreasing
in the non-zero-byte count with the zero-byte count fixed. -/
theorem compressed_size_formula (tx : EvmTransactionRequest) :
    calculate_compressed_tx_size tx =
      (4 * countZero (dataBytes tx.data) + 16 * countNonzero (dataBytes tx.data)) / 16 ∧
    compressedSizeOfBytes [] = 0 ∧
    calculate_compressed_tx_size (txWithData none) = 0 ∧
    (∀ bytes1 bytes2 : List Nat, countZero bytes1 = countZero bytes2 →
      countNonzero bytes1 ≤ countNonzero bytes2 →
      compressedSizeOfBytes bytes1 ≤ compressedSizeOfBytes bytes2) := by
  refine ⟨?_, rfl, rfl, ?_⟩
  · rw [calculate_compressed_tx_size, compressedSizeOfBytes_eq,
      Nat.mul_comm (countZero _) 4, Nat.mul_comm (countNonzero _) 16]
  · intro bytes1 bytes2 h1 h2
    rw [compressedSizeOfBytes_eq, compressedSizeOfBytes_eq]
    apply Nat.div_le_div_right
    omega

/-- C4 witness: adding a non-zero byte with the zero count fixed does not
decrease the compressed size. -/
theorem compressed_size_formula_witness :
    compressedSizeOfBytes [0, 0, 1] ≤ compressedSizeOfBytes [0, 0, 2, 3] :=
  (compressed_size_formula (txWithData none)).2.2.2 [0, 0, 1] [0, 0, 2, 3]
    (by decide) (by decide)

/-- C9 counterexample: the code strips leading `"0x"` repeatedly, not once.
`"0x0xff"` is not valid hex after removing one optional `"0x"` prefix, so the
claim says the payload is treated as empty with size 0 — but the code strips
both prefixes, decodes `"ff"`, and returns size 1. -/
theorem compressed_size_repeated_strip_counterexample :
    hexDecode (stripOnce0x "0x0xff".data) = none ∧
    calculate_compressed_tx_size (txWithData (some "0x0xff".data)) = 1 := by
  decide

/-- C9 amended: for a present data payload that is not valid hex after
removing ALL leading `"0x"` occurrences, the compressed size is 0; a
malformed payload never causes an error (the embedding is a total
function). -/
theorem compressed_size_invalid_hex (tx : EvmTransactionRequest) (s : List Char)
    (hdata : tx.data = some s) (h : hexDecode (trimStartMatches0x s) = none) :
    calculate_compressed_tx_size tx = 0 := by
  simp [calculate_compressed_tx_size, dataBytes, hdata, h, compressedSizeOfBytes]

/-- C9 amended witness: an outright non-hex payload yields size 0. -/
theorem compressed_size_invalid_hex_witness :
    calculate_compressed_tx_size (txWithData (some ['z', 'z'])) = 0 :=
  compressed_size_invalid_hex (txWithData (some ['z', 'z'])) ['z', 'z'] rfl (by decide)

/-- C1 counterexample: with `base_fee_scalar = l1_base_fee = 2^128` the
saturated first product is `U256_MAX`; adding the blob product 1 with the
plain `+` wraps to 0 instead of saturating, so `calculate_fee` returns 0
while the claim's fully-saturating formula gives `U256_MAX`. -/
theorem calculate_fee_wrapping_add_counterexample :
    calculate_fee ⟨2 ^ 128, 0, 0, 1, 2 ^ 128, 1⟩ (txWithData (some "0xff".data)) = 0 ∧
    satMul (calculate_compressed_tx_size (txWithData (some "0xff".data)))
      (satAdd (satMul (satMul 16 (2 ^ 128)) (2 ^ 128)) (satMul 1 1)) = U256_MAX := by
  decide

/-- C1 amended: `calculate_fee` equals
`compressed_size ⊗ ((16 ⊗ base_fee_scalar ⊗ l1_base_fee + blob_base_fee_scalar ⊗ blob_base_fee) mod 2^256)`
where `⊗` is saturating multiplication: the multiplications saturate, but the
addition of the two products is the ordinary `U256` `+`, wrapping modulo
`2^256` on overflow; the result always stays in the `U256` range (no
panic). -/
theorem calculate_fee_formula (fee_data : OptimismFeeData) (tx : EvmTransactionRequest) :
    calculate_fee fee_data tx =
      satMul (calculate_compressed_tx_size tx)
        ((satMul (satMul 16 fee_data.base_fee_scalar) fee_data.l1_base_fee +
          satMul fee_data.blob_base_fee_scalar fee_data.blob_base_fee) % U256_MOD) ∧
    calculate_fee fee_data tx ≤ U256_MAX :=
  ⟨rfl, min_le_right _ _⟩

/-- C7: on success the Optimism handler sets `extra_fee` to the fresh L1 data
fee, recomputes `total_cost` from the base fee model (EIP-1559 exactly when
`max_fee_per_gas` is present), the defaulted gas limit, the value and the new
`extra_fee` — independent of the pre-surcharge `total_cost` — and leaves
`gas_price`, `max_fee_per_gas`, `max_priority_fee_per_gas` and
`is_min_bumped` unchanged. -/
theorem handle_price_params_frame (fee_data : OptimismFeeData)
    (tx : EvmTransactionRequest) (orig : PriceParams) :
    (handle_price_params fee_data tx orig).extra_fee = some (calculate_fee fee_data tx) ∧
    (handle_price_params fee_data tx orig).total_cost =
      PriceParams.calculate_total_cost
        { orig with extra_fee := some (calculate_fee fee_data tx) }
        orig.max_fee_per_gas.isSome (tx.gas_limit.getD DEFAULT_GAS_LIMIT) tx.value ∧
    (handle_price_params fee_data tx orig).gas_price = orig.gas_price ∧
    (handle_price_params fee_data tx orig).max_fee_per_gas = orig.max_fee_per_gas ∧
    (handle_price_params fee_data tx orig).max_priority_fee_per_gas =
      orig.max_priority_fee_per_gas ∧
    (handle_price_params fee_data tx orig).is_min_bumped = orig.is_min_bumped ∧
    (∀ tc, (handle_price_params fee_data tx { orig with total_cost := tc }).total_cost =
      (handle_price_params fee_data tx orig).total_cost) :=
  ⟨rfl, rfl, rfl, rfl, rfl, rfl, fun _ => rfl⟩

/-- C2: in the EIP-1559 branch of `sign_transaction` a decoded recovery byte
of 27 is rewritten to 0 and one of 28 to 1 before the response is built; the
legacy branch returns the decoded signature bytes exactly as they are. -/
theorem sign_transaction_v_normalization (sig_bytes : List Nat) :
    (sig_bytes.getD 64 0 = 27 →
      processSignatureBytes true sig_bytes = sig_bytes.set 64 0) ∧
    (sig_bytes.getD 64 0 = 28 →
      processSignatureBytes true sig_bytes = sig_bytes.set 64 1) ∧
    processSignatureBytes false sig_bytes = sig_bytes := by
  refine ⟨fun h => ?_, fun h => ?_, rfl⟩
  · unfold processSignatureBytes
    rw [h]
    simp
  · unfold processSignatureBytes
    rw [h]
    simp

/-- C2 witness on concrete 65-byte signatures. -/
theorem sign_transaction_v_normalization_witness :
    processSignatureBytes true (List.replicate 64 5 ++ [27]) =
      (List.replicate 64 5 ++ [27]).set 64 0 ∧
    processSignatureBytes true (List.replicate 64 5 ++ [28]) =
      (List.replicate 64 5 ++ [28]).set 64 1 ∧
    processSignatureBytes false (List.replicate 64 5 ++ [27]) =
      List.replicate 64 5 ++ [27] :=
  ⟨(sign_transaction_v_normalization (List.replicate 64 5 ++ [27])).1 (by decide),
   (sign_transaction_v_normalization (List.replicate 64 5 ++ [28])).2.1 (by decide),
   (sign_transaction_v_normalization (List.replicate 64 5 ++ [27])).2.2⟩

/-- C10: the EIP-1559 normalization touches only the exact byte values 27 and
28; any other decoded recovery byte (0, 1, or anything else) passes through
unchanged, never rejected or remapped. -/
theorem sign_transaction_v_passthrough (sig_bytes : List Nat)
    (h27 : sig_bytes.getD 64 0 ≠ 27) (h28 : sig_bytes.getD 64 0 ≠ 28) :
    processSignatureBytes true sig_bytes = sig_bytes := by
  unfold processSignatureBytes
  rw [if_neg h27, if_neg h28, ite_self]

/-- C10 witness: already-canonical 0 and out-of-domain 29 are untouched. -/
theorem sign_transaction_v_passthrough_witness :
    processSignatureBytes true (List.replicate 64 5 ++ [0]) =
      List.replicate 64 5 ++ [0] ∧
    processSignatureBytes true (List.replicate 64 5 ++ [29]) =
      List.replicate 64 5 ++ [29] :=
  ⟨sign_transaction_v_passthrough (List.replicate 64 5 ++ [0]) (by decide) (by decide),
   sign_transaction_v_passthrough (List.replicate 64 5 ++ [29]) (by decide) (by decide)⟩

/-- C8: `sign_typed_data` fails with `NotImplemented` on every request and
never produces a signature. -/
theorem sign_typed_data_not_implemented (req : SignTypedDataRequest) :
    sign_typed_data req =
      .error (.NotImplemented
        "EIP-712 typed data signing not yet implemented for CDP".data) := rfl

/-- C5: `sign_data` succeeds exactly on 65-byte remote signatures; any other
length yields a `SigningError` whose message contains both "65" and the
actual length; on success `r`/`s` are the lower-case hex of bytes 0..32 and
32..64, `v` is byte 64, and the composite field is the hex of all 65
bytes. -/
theorem sign_data_length_check (signature_bytes : List Nat) :
    ((∃ resp, sign_data_process signature_bytes = .ok resp) ↔
      signature_bytes.length = 65) ∧
    (signature_bytes.length = 65 →
      sign_data_process signature_bytes =
        .ok { r := hexEncode (signature_bytes.take 32)
            , s := hexEncode ((signature_bytes.drop 32).take 32)
            , v := signature_bytes.getD 64 0
            , sig := hexEncode signature_bytes }) ∧
    (signature_bytes.length ≠ 65 →
      ∃ m, sign_data_process signature_bytes = .error (.SigningError m) ∧
        occursIn "65".data m ∧
        occursIn (toString signature_bytes.length).data m) := by
  by_cases h : signature_bytes.length = 65
  · have hok : sign_data_process signature_bytes =
        .ok { r := hexEncode (signature_bytes.take 32),
              s := hexEncode ((signature_bytes.drop 32).take 32),
              v := signature_bytes.getD 64 0,
              sig := hexEncode signature_bytes } := by
      unfold sign_data_process
      rw [if_neg (not_not_intro h)]
    exact ⟨⟨fun _ => h, fun _ => ⟨_, hok⟩⟩, fun _ => hok, fun hne => absurd h hne⟩
  · refine ⟨⟨?_, fun he => absurd he h⟩, fun he => absurd he h, fun _ => ?_⟩
    · rintro ⟨resp, hr⟩
      unfold sign_data_process at hr
      rw [if_pos h] at hr
      exact Except.noConfusion hr
    · refine ⟨"Invalid signature length from CDP: expected 65 bytes, got ".data ++
        (toString signature_bytes.length).data, ?_, ?_, ?_⟩
      · unfold sign_data_process
        rw [if_pos h]
      · refine ⟨"Invalid signature length from CDP: expected ".data,
          " bytes, got ".data ++ (toString signature_bytes.length).data, ?_⟩
        have hsplit :
            ("Invalid signature length from CDP: expected 65 bytes, got ".data
              : List Char) =
            "Invalid signature length from CDP: expected ".data ++ "65".data ++
              " bytes, got ".data := by decide
        rw [hsplit]
        simp
      · exact ⟨"Invalid signature length from CDP: expected 65 bytes, got ".data,
          [], by simp⟩

/-- C5 witness: a 65-byte signature is split, a 64-byte one is rejected with
a message naming 65 and the actual length. -/
theorem sign_data_length_check_witness :
    sign_data_process (List.replicate 65 7) =
      .ok { r := hexEncode ((List.replicate 65 7).take 32)
          , s := hexEncode (((List.replicate 65 7).drop 32).take 32)
          , v := (List.replicate 65 7).getD 64 0
          , sig := hexEncode (List.replicate 65 7) } ∧
    (∃ m, sign_data_process (List.replicate 64 7) = .error (.SigningError m) ∧
      occursIn "65".data m ∧
      occursIn (toString (List.replicate 64 7).length).data m) :=
  ⟨(sign_data_length_check (List.replicate 65 7)).2.1 (by decide),
   (sign_data_length_check (List.replicate 64 7)).2.2 (by decide)⟩

/-- C6: a `0x` input succeeds exactly when the remainder hex-decodes to 20
bytes, yielding `Address::Evm` of those bytes, and otherwise fails with a
`ConfigError` (bad hex and wrong length alike); any other input is returned
as `Address::Solana` holding the exact string. -/
theorem address_from_string_correct (s : List Char) :
    (starts0x s = true →
      (∀ bytes, hexDecode (stripOnce0x s) = some bytes →
        (bytes.length = 20 → address_from_string s = .ok (.Evm bytes)) ∧
        (bytes.length ≠ 20 →
          ∃ m, address_from_string s = .error (.ConfigError m))) ∧
      (hexDecode (stripOnce0x s) = none →
        ∃ m, address_from_string s = .error (.ConfigError m)) ∧
      ((∃ a, address_from_string s = .ok a) ↔
        ∃ bytes, hexDecode (stripOnce0x s) = some bytes ∧ bytes.length = 20)) ∧
    (starts0x s = false → address_from_string s = .ok (.Solana s)) := by
  constructor
  · intro hs
    refine ⟨?_, ?_, ?_⟩
    · intro bytes hb
      constructor
      · intro h20
        simp [address_from_string, hs, hb, h20]
      · intro hne
        refine ⟨"EVM address should be 20 bytes, got ".data ++
          (toString bytes.length).data ++ " bytes".data, ?_⟩
        simp [address_from_string, hs, hb, hne]
    · intro hn
      refine ⟨"Invalid hex address: invalid hex".data, ?_⟩
      simp [address_from_string, hs, hn]
    · constructor
      · rintro ⟨a, ha⟩
        cases hhd : hexDecode (stripOnce0x s) with
        | none => simp [address_from_string, hs, hhd] at ha
        | some bytes =>
          by_cases h20 : bytes.length = 20
          · exact ⟨bytes, rfl, h20⟩
          · simp [address_from_string, hs, hhd, h20] at ha
      · rintro ⟨bytes, hb, h20⟩
        exact ⟨.Evm bytes, by simp [address_from_string, hs, hb, h20]⟩
  · intro hs
    simp [address_from_string, hs]

/-- C6 witness: the spec's example EVM address decodes to its 20 bytes, and a
non-`0x` string comes back as the unchanged Solana variant. -/
theorem address_from_string_correct_witness :
    address_from_string "0x742d35Cc6634C0532925a3b844Bc454e4438f44f".data =
      .ok (.Evm [0x74, 0x2d, 0x35, 0xcc, 0x66, 0x34, 0xc0, 0x53, 0x29, 0x25,
        0xa3, 0xb8, 0x44, 0xbc, 0x45, 0x4e, 0x44, 0x38, 0xf4, 0x4f]) ∧
    address_from_string ['s', 'o', 'l'] = .ok (.Solana ['s', 'o', 'l']) :=
  ⟨(((address_from_string_correct
        "0x742d35Cc6634C0532925a3b844Bc454e4438f44f".data).1 (by decide)).1
      [0x74, 0x2d, 0x35, 0xcc, 0x66, 0x34, 0xc0, 0x53, 0x29, 0x25,
        0xa3, 0xb8, 0x44, 0xbc, 0x45, 0x4e, 0x44, 0x38, 0xf4, 0x4f]
      (by decide)).1 (by decide),
   (address_from_string_correct ['s', 'o', 'l']).2 (by decide)⟩

/-- `position` returns `none` when no list element equals the key. -/
theorem position_eq_none (pk : List Nat) (keys : List (List Nat)) (h : pk ∉ keys) :
    position (fun key => key == pk) keys = none := by
  induction keys with
  | nil => rfl
  | cons k ks ih =>
    have hk : ¬ ((k == pk) = true) := by
      simp only [beq_iff_eq]
      rintro rfl
      exact h (List.mem_cons_self _ _)
    have hks : pk ∉ ks := fun hm => h (List.mem_cons_of_mem _ hm)
    simp [position, hk, ih hks]

/-- `position` returns the index of the first exact match. -/
theorem position_eq_some (pk : List Nat) (keys : List (List Nat)) (i : Nat)
    (hi : i < keys.length) (hkey : keys.getD i [] = pk)
    (hfirst : ∀ j, j < i → keys.getD j [] ≠ pk) :
    position (fun key => key == pk) keys = some i := by
  induction keys generalizing i with
  | nil => simp at hi
  | cons k ks ih =>
    cases i with
    | zero =>
      simp only [List.getD_cons_zero] at hkey
      simp [position, hkey]
    | succ n =>
      have hk : ¬ ((k == pk) = true) := by
        simp only [beq_iff_eq]
        exact fun hc => hfirst 0 (Nat.succ_pos n) (by simpa using hc)
      have hrec := ih n (by simpa using hi) (by simpa using hkey)
        (fun j hj => by
          have := hfirst (j + 1) (by omega)
          simpa using this)
      simp [position, hk, hrec]

/-- C3: a Solana `sign` whose decoded signed transaction does not list the
signer's pubkey among its account keys fails with a `SigningError` (no other
signer's signature is ever returned); when the pubkey occurs, the index is
the first exact match, an index beyond the signature list fails with the
"index out of bounds" `SigningError`, and otherwise exactly the signature at
that index is returned. -/
theorem resolve_signature_correct (pk : List Nat) (keys sigs : List (List Nat)) :
    (pk ∉ keys → ∃ m, resolve_signature pk keys sigs = .error (.SigningError m)) ∧
    (∀ i, i < keys.length → keys.getD i [] = pk →
      (∀ j, j < i → keys.getD j [] ≠ pk) →
      (sigs.length ≤ i →
        resolve_signature pk keys sigs =
          .error (.SigningError "Signature index out of bounds".data)) ∧
      (i < sigs.length →
        resolve_signature pk keys sigs = .ok (sigs.getD i []))) := by
  constructor
  · intro h
    refine ⟨"CDP pubkey not found in transaction signers".data, ?_⟩
    simp only [resolve_signature, position_eq_none pk keys h]
  · intro i hi hkey hfirst
    have hpos := position_eq_some pk keys i hi hkey hfirst
    constructor
    · intro hle
      simp only [resolve_signature, hpos]
      rw [if_pos hle]
    · intro hlt
      simp only [resolve_signature, hpos]
      rw [if_neg (by omega : ¬ i ≥ sigs.length)]

/-- C3 witness: an absent pubkey errors; a pubkey at index 1 with two
signatures yields the second signature; with only one signature the same
lookup fails with the out-of-bounds `SigningError`. -/
theorem resolve_signature_correct_witness :
    (∃ m, resolve_signature [1] [[2]] [[7]] = .error (.SigningError m)) ∧
    resolve_signature [1] [[2], [1]] [[7], [9]] = .ok [9] ∧
    resolve_signature [1] [[2], [1]] [[7]] =
      .error (.SigningError "Signature index out of bounds".data) :=
  ⟨(resolve_signature_correct [1] [[2]] [[7]]).1 (by decide),
   ((resolve_signature_correct [1] [[2], [1]] [[7], [9]]).2 1 (by decide) (by decide)
      (by decide)).2 (by decide),
   ((resolve_signature_correct [1] [[2], [1]] [[7]]).2 1 (by decide) (by decide)
      (by decide)).1 (by decide)⟩

end Relayer
